import Mathlib

/-!
# HTTP middlewares of `http_middlewares.go`

A shallow embedding of the five handler decorators `mwMultiMethod`, `mwMethodOnly`,
`mwBasicAuth`, `mwLogging` and `mwCommonHeaders`, together with the part of Go's
`net/http`, `time` and `log` they call, and theorems about their behaviour.

Conventions.
* A Go `string` is a `String`; the texts that occur here are ASCII.
* A Go handler `func(rw http.ResponseWriter, req *http.Request)` is a total function
  from the request and the world before the call to the world after it.  The world
  holds the response writer, the log sink, the clock and an arbitrary component `σ`
  for whatever else a handler may touch.  Handlers neither panic nor change the request,
  and the values of a method map are handlers, never `nil`.
* The clock is part of the world: it is read where the code reads it and moves only
  while a handler runs.
* A Go `map` is given by its entries, and every `for ... range` loop over it gets the
  enumeration it observes as explicit data, because Go leaves that order unspecified.
-/

set_option autoImplicit false
set_option maxRecDepth 4000

namespace Shell2http

/-! ## `net/http`: headers -/

/-- A `http.Header`, i.e. `map[string][]string`, as an association list with at most
one pair per key in use; lookups take the first pair. -/
abbrev Header := List (String × List String)

/-- The bytes allowed in a header field name (`textproto.validHeaderFieldByte`):
the token characters of RFC 7230. -/
def validHeaderFieldByte (c : Char) : Bool :=
  c.isAlphanum || "!#$%&'*+-.^_`|~".data.contains c

/-- The rewriting loop of `textproto.canonicalMIMEHeaderKey`: the first letter and each
letter after a hyphen in upper case, every other letter in lower case. -/
def canonicalLoop : Bool → List Char → List Char
  | _, [] => []
  | upper, c :: cs =>
    (if upper then c.toUpper else c.toLower) :: canonicalLoop (c == '-') cs

/-- Go `textproto.CanonicalMIMEHeaderKey`: a key holding a byte that is not a token
character is returned as it is, every other key is put in canonical case. -/
def CanonicalMIMEHeaderKey (s : String) : String :=
  if s.data.all validHeaderFieldByte then String.mk (canonicalLoop true s.data) else s

/-- Direct map access `h[key]`, with the comma-ok result as an `Option`. -/
def Header.lookup (h : Header) (key : String) : Option (List String) :=
  (h.find? (fun kv => kv.1 == key)).map Prod.snd

/-- Go `Header.Get`: the first value stored under the canonical form of `key`, or `""`. -/
def Header.Get (h : Header) (key : String) : String :=
  match h.lookup (CanonicalMIMEHeaderKey key) with
  | some (v :: _) => v
  | _ => ""

/-- Go `Header.Del`: removes the canonical form of `key`. -/
def Header.Del (h : Header) (key : String) : Header :=
  h.filter (fun kv => kv.1 != CanonicalMIMEHeaderKey key)

/-- Go `Header.Set`: the canonical form of `key` now maps to the single value `value`. -/
def Header.Set (h : Header) (key value : String) : Header :=
  (CanonicalMIMEHeaderKey key, [value]) :: h.Del key

/-! ## `net/http`: requests -/

/-- The fields of `http.Request` the middlewares read.  `Header` holds the request
headers under their canonical keys, as the server stores them. -/
structure Request where
  Method : String
  Host : String
  RemoteAddr : String
  RequestURI : String
  Header : Header
deriving DecidableEq

/-- The value of one character of the standard base64 alphabet. -/
def base64Value (c : Char) : Option Nat :=
  if 'A' ≤ c ∧ c ≤ 'Z' then some (c.toNat - 65)
  else if 'a' ≤ c ∧ c ≤ 'z' then some (c.toNat - 97 + 26)
  else if '0' ≤ c ∧ c ≤ '9' then some (c.toNat - 48 + 52)
  else if c = '+' then some 62
  else if c = '/' then some 63
  else none

/-- The quantum loop of `base64.StdEncoding.Decode` on input without line breaks:
four characters give three bytes; the last quantum may end in one or two `=`;
anything else (a foreign character, missing padding, text after the padding) is an
error, here `none`. -/
def base64Quanta : List Char → Option (List Nat)
  | [] => some []
  | a :: b :: c :: d :: rest =>
    match base64Value a, base64Value b with
    | some x, some y =>
      if c = '=' then
        if d = '=' ∧ rest = [] then some [(x * 4 + y / 16) % 256] else none
      else
        match base64Value c with
        | none => none
        | some z =>
          if d = '=' then
            if rest = [] then some [(x * 4 + y / 16) % 256, (y * 16 + z / 4) % 256] else none
          else
            match base64Value d, base64Quanta rest with
            | some v, some out =>
              some ((x * 4 + y / 16) % 256 :: (y * 16 + z / 4) % 256 :: (z * 64 + v) % 256 :: out)
            | _, _ => none
    | _, _ => none
  | _ => none

/-- Go `base64.StdEncoding.DecodeString`: carriage returns and line feeds are skipped,
the rest is decoded quantum by quantum; the bytes become the characters of the result. -/
def base64DecodeString (s : String) : Option String :=
  (base64Quanta (s.data.filter (fun c => c != '\r' && c != '\n'))).map
    (fun bytes => String.mk (bytes.map Char.ofNat))

/-- Go `strings.Cut(s, ":")` on a character list: the text before and after the first colon. -/
def cutColon : List Char → Option (List Char × List Char)
  | [] => none
  | c :: cs =>
    if c = ':' then some ([], cs)
    else (cutColon cs).map (fun p => (c :: p.1, p.2))

/-- Go `http.parseBasicAuth`: the value must start with `Basic ` (in any letter case),
the rest must be valid base64 and decode to `username:password`.  The result is
Go's triple `(username, password, ok)`. -/
def parseBasicAuth (auth : String) : String × String × Bool :=
  if auth.data.length < 6 ∨ (auth.data.take 6).map Char.toLower ≠ "basic ".data then
    ("", "", false)
  else
    match base64DecodeString (String.mk (auth.data.drop 6)) with
    | none => ("", "", false)
    | some cs =>
      match cutColon cs.data with
      | none => ("", "", false)
      | some (username, password) => (String.mk username, String.mk password, true)

/-- Go `(*Request).BasicAuth`: the credentials of the `Authorization` header. -/
def Request.BasicAuth (r : Request) : String × String × Bool :=
  let auth := r.Header.Get "Authorization"
  if auth = "" then ("", "", false) else parseBasicAuth auth

/-- Go `(*Request).UserAgent`. -/
def Request.UserAgent (r : Request) : String :=
  r.Header.Get "User-Agent"

/-! ## `net/http`: response writer, handlers -/

/-- The state behind a `http.ResponseWriter`: the live header map returned by
`Header()`, and what has been committed to the response: whether the status line was
written, with which code and which headers, and the body bytes written so far. -/
structure ResponseWriter where
  header : Header
  wroteHeader : Bool
  status : Nat
  sent : Header
  body : String
deriving DecidableEq

/-- A response writer nothing has been written to, as the server hands it to the
outermost handler. -/
def ResponseWriter.fresh : ResponseWriter :=
  { header := [], wroteHeader := false, status := 0, sent := [], body := "" }

/-- Go `ResponseWriter.WriteHeader`: the first call fixes the status code and the headers
of the response; later calls are ignored. -/
def ResponseWriter.WriteHeader (rw : ResponseWriter) (code : Nat) : ResponseWriter :=
  if rw.wroteHeader then rw
  else { rw with wroteHeader := true, status := code, sent := rw.header }

/-- Go `ResponseWriter.Write`: writes the status line with `http.StatusOK` when that has
not happened yet, then appends to the body. -/
def ResponseWriter.Write (rw : ResponseWriter) (data : String) : ResponseWriter :=
  let rw := rw.WriteHeader 200
  { rw with body := rw.body ++ data }

/-- What the server does when the outermost handler returns: a response whose status
line was never written gets `http.StatusOK`. -/
def ResponseWriter.finish (rw : ResponseWriter) : ResponseWriter :=
  rw.WriteHeader 200

/-- Go `http.StatusMethodNotAllowed`. -/
def StatusMethodNotAllowed : Nat := 405

/-- Go `http.StatusUnauthorized`. -/
def StatusUnauthorized : Nat := 401

/-- Go `http.StatusText`, for the codes used here. -/
def StatusText (code : Nat) : String :=
  if code = 401 then "Unauthorized"
  else if code = 405 then "Method Not Allowed"
  else ""

/-- Go `http.Error` on the writer: drops `Content-Length`, sets the two content headers,
writes the status line and prints the message followed by a newline. -/
def ResponseWriter.Error (rw : ResponseWriter) (error : String) (code : Nat) :
    ResponseWriter :=
  let rw := { rw with header := rw.header.Del "Content-Length" }
  let rw := { rw with header := rw.header.Set "Content-Type" "text/plain; charset=utf-8" }
  let rw := { rw with header := rw.header.Set "X-Content-Type-Options" "nosniff" }
  let rw := rw.WriteHeader code
  rw.Write (error ++ "\n")

/-- Everything a handler call can read and change: the response writer of the request
being served, the lines written to the standard logger, the clock (nanoseconds) and
the rest of the program state `env`. -/
structure World (σ : Type) where
  rw : ResponseWriter
  log : List String
  now : Nat
  env : σ

/-- A `http.HandlerFunc`. -/
abbrev HandlerFunc (σ : Type) := Request → World σ → World σ

variable {σ : Type}

/-- Go `HandlerFunc.ServeHTTP` calls the function. -/
def HandlerFunc.ServeHTTP (f : HandlerFunc σ) (req : Request) (w : World σ) : World σ :=
  f req w

/-- Go `http.Error(rw, error, code)`. -/
def httpError (w : World σ) (error : String) (code : Nat) : World σ :=
  { w with rw := w.rw.Error error code }

/-- Go `rw.Header().Set(key, value)`. -/
def headerSet (w : World σ) (key value : String) : World σ :=
  { w with rw := { w.rw with header := w.rw.header.Set key value } }

/-! ## `time`, `fmt`, `log` -/

/-- Go `time.Millisecond`, in nanoseconds like every `time.Duration`. -/
def Millisecond : Int := 1000000

/-- The largest `time.Duration`, an `int64`. -/
def maxDuration : Int := 2 ^ 63 - 1

/-- The smallest `time.Duration`. -/
def minDuration : Int := -(2 ^ 63)

/-- The `int64` a result of `int64` arithmetic wraps to. -/
def wrapInt64 (x : Int) : Int := (x + 2 ^ 63) % 2 ^ 64 - 2 ^ 63

/-- Go `time.lessThanHalf`: `uint64(x)+uint64(x) < uint64(y)`. -/
def lessThanHalf (x y : Int) : Bool :=
  decide ((x % 2 ^ 64 + x % 2 ^ 64) % 2 ^ 64 < y % 2 ^ 64)

/-- Go `Duration.Round`: the multiple of `m` nearest to `d`, halfway values away from
zero; the extreme value when the result leaves the `int64` range. -/
def Duration.Round (d m : Int) : Int :=
  if m ≤ 0 then d
  else
    let r := Int.tmod d m
    if d < 0 then
      let r := -r
      if lessThanHalf r m then d + r
      else
        let d1 := wrapInt64 (d - m + r)
        if d1 < d then d1 else minDuration
    else
      if lessThanHalf r m then d - r
      else
        let d1 := wrapInt64 (d + m - r)
        if d1 > d then d1 else maxDuration

/-- Go `time.fmtInt`: the decimal digits of `v`, pushed in front of `buf`. -/
def fmtIntLoop : Nat → Nat → List Char → List Char
  | 0, _, buf => buf
  | fuel + 1, v, buf =>
    if v = 0 then buf else fmtIntLoop fuel (v / 10) (Char.ofNat (v % 10 + 48) :: buf)

/-- Go `time.fmtInt` for a `uint64`, which has at most twenty digits. -/
def fmtInt (v : Nat) (buf : List Char) : List Char :=
  if v = 0 then '0' :: buf else fmtIntLoop 20 v buf

/-- The loop of `time.fmtFrac`: takes `prec` digits off `v`, pushing them in front of
`buf` from the first non-zero one on. -/
def fmtFracLoop : Nat → Nat → Bool → List Char → List Char × Nat × Bool
  | 0, v, print, buf => (buf, v, print)
  | prec + 1, v, print, buf =>
    let digit := v % 10
    let print := print || digit != 0
    fmtFracLoop prec (v / 10) print (if print then Char.ofNat (digit + 48) :: buf else buf)

/-- Go `time.fmtFrac`: the fraction of `v/10**prec` without trailing zeros, and without
the decimal point when it is zero, in front of `buf`; also returns `v/10**prec`. -/
def fmtFrac (v prec : Nat) (buf : List Char) : List Char × Nat :=
  match fmtFracLoop prec v false buf with
  | (buf, v, print) => (if print then '.' :: buf else buf, v)

/-- Go `Duration.String`: `0s`, or below one second the value in `ns`, `µs` or `ms`,
or from one second on hours, minutes and seconds such as `1h2m0.5s`. -/
def Duration.String (d : Int) : String :=
  let u := d.natAbs
  let text : List Char :=
    if u < 1000000000 then
      if u = 0 then ['0', 's']
      else if u < 1000 then
        fmtInt (fmtFrac u 0 ['n', 's']).2 (fmtFrac u 0 ['n', 's']).1
      else if u < 1000000 then
        fmtInt (fmtFrac u 3 [Char.ofNat 194, Char.ofNat 181, 's']).2
          (fmtFrac u 3 [Char.ofNat 194, Char.ofNat 181, 's']).1
      else
        fmtInt (fmtFrac u 6 ['m', 's']).2 (fmtFrac u 6 ['m', 's']).1
    else
      let seconds := fmtInt ((fmtFrac u 9 ['s']).2 % 60) (fmtFrac u 9 ['s']).1
      let minutes := (fmtFrac u 9 ['s']).2 / 60
      if minutes > 0 then
        let text := fmtInt (minutes % 60) ('m' :: seconds)
        let hours := minutes / 60
        if hours > 0 then fmtInt hours ('h' :: text) else text
      else seconds
  String.mk (if d < 0 ∧ u ≠ 0 then '-' :: text else text)

/-- Go `time.Since(start)` on the monotonic clock: now minus `start`, kept within the
`int64` range. -/
def timeSince (now start : Nat) : Int :=
  max minDuration (min maxDuration ((now : Int) - (start : Int)))

/-- The text `fmt.Sprintf` gives for the format `%s %s %s %s "%s" %s` of line 82. -/
def logFormat (host remoteAddr method requestURI userAgent elapsed : String) : String :=
  host ++ " " ++ remoteAddr ++ " " ++ method ++ " " ++ requestURI ++ " \"" ++ userAgent
    ++ "\" " ++ elapsed

/-! ## The middlewares -/

/-- The `map[string]http.HandlerFunc` argument of `mwMultiMethod`.  `entries` lists
each key with its handler once.  The three `for ... range` loops of the function see
the enumerations `rangeSingle` (line 17), `rangeCheck` (line 22) and, each time the
returned closure serves a request, `rangeServe` (line 29). -/
structure MethodMap (σ : Type) where
  entries : List (String × HandlerFunc σ)
  rangeSingle : List (String × HandlerFunc σ)
  rangeCheck : List (String × HandlerFunc σ)
  rangeServe : Request → List (String × HandlerFunc σ)

/-- A legal map value: keys are unique and each loop enumerates exactly the entries. -/
structure MethodMap.WellFormed (m : MethodMap σ) : Prop where
  nodup : (m.entries.map Prod.fst).Nodup
  single : m.rangeSingle.Perm m.entries
  check : m.rangeCheck.Perm m.entries
  serve : ∀ req, (m.rangeServe req).Perm m.entries

/-- The map with the given entries, every loop enumerating them in the given order. -/
def MethodMap.ofList (l : List (String × HandlerFunc σ)) : MethodMap σ :=
  { entries := l, rangeSingle := l, rangeCheck := l, rangeServe := fun _ => l }

/-- Source function `mwMethodOnly` - allow one HTTP method only. -/
def mwMethodOnly (handler : HandlerFunc σ) (method : String) : HandlerFunc σ :=
  if method = "" then
    handler
  else
    fun req w =>
      if req.Method = method then
        handler.ServeHTTP req w
      else
        httpError w (StatusText StatusMethodNotAllowed) StatusMethodNotAllowed

/-- The loop of lines 22 to 26 of `mwMultiMethod`: is some key the empty string? -/
def rangeHasEmptyMethod : List (String × HandlerFunc σ) → Bool
  | [] => false
  | (method, _) :: rest => if method = "" then true else rangeHasEmptyMethod rest

/-- The body of the closure returned by `mwMultiMethod` (lines 29 to 37), run over the
enumeration its loop observes: the first entry whose key is the request method
serves the request; without one, the answer is 405. -/
def multiMethodServe : List (String × HandlerFunc σ) → HandlerFunc σ
  | [], _, w => httpError w (StatusText StatusMethodNotAllowed) StatusMethodNotAllowed
  | (method, handler) :: rest, req, w =>
    if req.Method = method then handler.ServeHTTP req w
    else multiMethodServe rest req w

/-- Source function `mwMultiMethod` - produce handler for several http methods.
The result is the pair of a handler (`none` for `nil`) and an error (`none` for `nil`). -/
def mwMultiMethod (in_ : MethodMap σ) : Option (HandlerFunc σ) × Option String :=
  match in_.entries.length, in_.rangeSingle with
  | 0, _ => (none, some "requires at least one handler")
  | 1, (method, handler) :: _ => (some (mwMethodOnly handler method), none)
  | _, _ =>
    if rangeHasEmptyMethod in_.rangeCheck then
      (none, some "mixing predetermined HTTP method with empty is not allowed")
    else
      (some (fun req w => multiMethodServe (in_.rangeServe req) req w), none)

/-- Source function `mwBasicAuth` - add HTTP Basic Authentication. -/
def mwBasicAuth (handler : HandlerFunc σ) (user pass : String) : HandlerFunc σ :=
  fun req w =>
    let (reqUser, reqPass, ok) := req.BasicAuth
    if !ok || reqUser != user || reqPass != pass then
      let w := headerSet w "WWW-Authenticate" "Basic realm=\"Please enter user and password\""
      httpError w "name/password is required" StatusUnauthorized
    else
      handler.ServeHTTP req w

/-- Lines 76 to 79 of `mwLogging`: the client address that is logged. -/
def loggedRemoteAddr (req : Request) : String :=
  let remoteAddr := req.RemoteAddr
  match req.Header.lookup "X-Real-Ip" with
  | some (first :: _) => first ++ ", " ++ remoteAddr
  | _ => remoteAddr

/-- Go `log.Printf`: one record for the standard logger; the text is kept as formatted,
the prefix and line end the logger adds are left out. -/
def logPrintf (w : World σ) (record : String) : World σ :=
  { w with log := w.log ++ [record] }

/-- Source function `mwLogging` - add logging for handler. -/
def mwLogging (handler : HandlerFunc σ) : HandlerFunc σ :=
  fun req w =>
    let remoteAddr := loggedRemoteAddr req
    let start := w.now
    let w := handler.ServeHTTP req w
    logPrintf w (logFormat req.Host remoteAddr req.Method req.RequestURI req.UserAgent
      (Duration.String (Duration.Round (timeSince w.now start) Millisecond)))

/-- Source function `mwCommonHeaders` - set common headers.  `VERSION` is the
package-level version string, declared outside this file. -/
def mwCommonHeaders (VERSION : String) (handler : HandlerFunc σ) : HandlerFunc σ :=
  fun req w =>
    let w := headerSet w "Server" ("shell2http " ++ VERSION)
    handler.ServeHTTP req w

/-! ## Observing handler calls

To state which handlers a middleware calls, and how often, a handler is wrapped so that
each call of it is entered in a journal next to the program state.  The wrapped handler
still acts on the response writer, the log, the clock and the state exactly as before,
and has no access to the journal. -/

/-- Program state extended with the journal of handler calls: tag and request of each
call, oldest first. -/
structure Probed (σ : Type) where
  env : σ
  journal : List (String × Request)

/-- The world without the journal. -/
def World.forget (w : World (Probed σ)) : World σ :=
  { rw := w.rw, log := w.log, now := w.now, env := w.env.env }

/-- The handler `h`, entering each of its calls in the journal under `tag`. -/
def probe (tag : String) (h : HandlerFunc σ) : HandlerFunc (Probed σ) :=
  fun req w =>
    let w1 := h req w.forget
    { rw := w1.rw, log := w1.log, now := w1.now,
      env := { env := w1.env, journal := w.env.journal ++ [(tag, req)] } }

/-- Every handler of the list probed under its own key. -/
def probeEntries (l : List (String × HandlerFunc σ)) : List (String × HandlerFunc (Probed σ)) :=
  l.map (fun e => (e.1, probe e.1 e.2))

/-- The method map with every handler probed under its own key. -/
def MethodMap.probed (m : MethodMap σ) : MethodMap (Probed σ) :=
  { entries := probeEntries m.entries
    rangeSingle := probeEntries m.rangeSingle
    rangeCheck := probeEntries m.rangeCheck
    rangeServe := fun req => probeEntries (m.rangeServe req) }

/-! ## Dispatch as the specification words it -/

/-- The handler the mapping holds for `method`, if any: a direct lookup by key. -/
def methodLookup (entries : List (String × HandlerFunc σ)) (method : String) :
    Option (HandlerFunc σ) :=
  (entries.find? (fun e => e.1 == method)).map Prod.snd

/-- Dispatch by direct lookup of the request method in the mapping: delegate to the
handler found, else answer 405 with the standard reason phrase. -/
def lookupDispatch (entries : List (String × HandlerFunc σ)) : HandlerFunc σ :=
  fun req w =>
    match methodLookup entries req.Method with
    | some handler => handler.ServeHTTP req w
    | none => httpError w (StatusText StatusMethodNotAllowed) StatusMethodNotAllowed

/-! ## Example data -/

/-- A handler that writes `text` as the response body. -/
def writeBody (text : String) : HandlerFunc Unit :=
  fun _ w => { w with rw := w.rw.Write text }

/-- The method set `{"GET": A, "POST": B}`. -/
def getPostMap : MethodMap Unit :=
  MethodMap.ofList [("GET", writeBody "A"), ("POST", writeBody "B")]

/-- A request with the given method and headers. -/
def requestOf (method : String) (header : Header) : Request :=
  { Method := method, Host := "localhost:8080", RemoteAddr := "10.0.0.7:51234",
    RequestURI := "/date", Header := header }

/-- The world at the start of a request: nothing written, nothing logged. -/
def World.start : World Unit :=
  { rw := ResponseWriter.fresh, log := [], now := 0, env := () }

/-- A handler that replaces the `Server` header and then writes a body:
`rw.Header().Set("Server", "nginx"); rw.Write("ok")`. -/
def overwriteServer : HandlerFunc Unit :=
  fun _ w => { w with rw := (headerSet w "Server" "nginx").rw.Write "ok" }

/-- The request header carrying `Authorization: Basic <credentials>`. -/
def authorization (credentials : String) : Header :=
  [("Authorization", ["Basic " ++ credentials])]

/-- A method set mixing the empty key with `GET`; its validation loop meets `GET` first. -/
def mixedMap : MethodMap Unit :=
  { entries := [("", writeBody "A"), ("GET", writeBody "B")]
    rangeSingle := [("", writeBody "A"), ("GET", writeBody "B")]
    rangeCheck := [("GET", writeBody "B"), ("", writeBody "A")]
    rangeServe := fun _ => [("", writeBody "A"), ("GET", writeBody "B")] }

/-- The one-entry method set `{"GET": A}`. -/
def getOnlyMap : MethodMap Unit :=
  MethodMap.ofList [("GET", writeBody "A")]

/-- The method set `{"GET": A, "POST": B}` again, every loop meeting `POST` first. -/
def postGetMap : MethodMap Unit :=
  { entries := [("GET", writeBody "A"), ("POST", writeBody "B")]
    rangeSingle := [("POST", writeBody "B"), ("GET", writeBody "A")]
    rangeCheck := [("POST", writeBody "B"), ("GET", writeBody "A")]
    rangeServe := fun _ => [("POST", writeBody "B"), ("GET", writeBody "A")] }

/-- A handler that takes 150.4 ms, logs a line of its own and answers 404. -/
def slowNotFound : HandlerFunc Unit :=
  fun _ w =>
    { w with now := w.now + 150400000, log := w.log ++ ["lookup failed"],
             rw := (w.rw.WriteHeader 404).Write "not found" }

/-- A proxied request: two `X-Real-Ip` values and a user agent. -/
def proxiedRequest : Request :=
  requestOf "GET" [("X-Real-Ip", ["1.2.3.4", "5.6.7.8"]), ("User-Agent", ["curl/8"])]

/-- The one-entry method set `{"": A}`. -/
def anyMethodMap : MethodMap Unit :=
  MethodMap.ofList [("", writeBody "A")]

/-! ## Lemmas -/

theorem Header.lookup_filter_ne (h : Header) (k k2 : String) :
    Header.lookup (h.filter (fun kv => kv.1 != k)) k2 =
      if k = k2 then none else Header.lookup h k2 := by
  induction h with
  | nil => simp [Header.lookup]
  | cons e rest ih =>
    obtain ⟨key, vals⟩ := e
    simp only [Header.lookup] at ih ⊢
    by_cases h1 : key = k
    · subst h1
      by_cases h2 : key = k2
      · simp [h2] at ih ⊢
      · simp [h2, List.filter_cons] at ih ⊢
        exact ih
    · by_cases h2 : key = k2
      · subst h2
        have : ¬ (k = key) := fun hc => h1 hc.symm
        simp [List.filter_cons, h1, this]
      · by_cases h3 : k = k2
        · simp [List.filter_cons, h1, h2, h3] at ih ⊢
        · simp [List.filter_cons, h1, h2, h3] at ih ⊢
          exact ih

/-- Reading a header after a deletion. -/
theorem Header.Get_Del (h : Header) (k k2 : String) :
    (h.Del k).Get k2 =
      if CanonicalMIMEHeaderKey k = CanonicalMIMEHeaderKey k2 then "" else h.Get k2 := by
  simp only [Header.Get, Header.Del, Header.lookup_filter_ne]
  by_cases hk : CanonicalMIMEHeaderKey k = CanonicalMIMEHeaderKey k2
  · simp [hk]
  · simp [hk]

/-- Reading a header after an assignment. -/
theorem Header.Get_Set (h : Header) (k v k2 : String) :
    (h.Set k v).Get k2 =
      if CanonicalMIMEHeaderKey k = CanonicalMIMEHeaderKey k2 then v else h.Get k2 := by
  by_cases hk : CanonicalMIMEHeaderKey k = CanonicalMIMEHeaderKey k2
  · simp [Header.Get, Header.Set, Header.lookup, hk]
  · have := Header.Get_Del h k k2
    simp only [hk, if_false] at this ⊢
    rw [← this]
    simp [Header.Get, Header.Set, Header.lookup, hk]

/-- The three header changes of `http.Error` leave every header other than
`Content-Length`, `Content-Type` and `X-Content-Type-Options` as it was. -/
theorem Header.Get_error_headers (h : Header) (k : String)
    (h1 : CanonicalMIMEHeaderKey "Content-Length" ≠ CanonicalMIMEHeaderKey k)
    (h2 : CanonicalMIMEHeaderKey "Content-Type" ≠ CanonicalMIMEHeaderKey k)
    (h3 : CanonicalMIMEHeaderKey "X-Content-Type-Options" ≠ CanonicalMIMEHeaderKey k) :
    (((h.Del "Content-Length").Set "Content-Type" "text/plain; charset=utf-8").Set
      "X-Content-Type-Options" "nosniff").Get k = h.Get k := by
  rw [Header.Get_Set, if_neg h3, Header.Get_Set, if_neg h2, Header.Get_Del, if_neg h1]

theorem mwBasicAuth_of_bad (handler : HandlerFunc σ) (user pass : String) (req : Request)
    (hbad : req.BasicAuth.2.2 = false ∨ req.BasicAuth.1 ≠ user ∨ req.BasicAuth.2.1 ≠ pass)
    (w : World σ) :
    mwBasicAuth handler user pass req w =
      httpError (headerSet w "WWW-Authenticate" "Basic realm=\"Please enter user and password\"")
        "name/password is required" 401 := by
  rcases hb : req.BasicAuth with ⟨reqUser, reqPass, ok⟩
  rw [hb] at hbad
  simp only at hbad
  have hc : (!ok || reqUser != user || reqPass != pass) = true := by
    rcases hbad with h | h | h
    · simp [h]
    · simp [h]
    · simp [h]
  simp only [mwBasicAuth, hb, hc, if_true, StatusUnauthorized]

theorem mwBasicAuth_of_good (handler : HandlerFunc σ) (user pass : String) (req : Request)
    (hok : req.BasicAuth = (user, pass, true)) (w : World σ) :
    mwBasicAuth handler user pass req w = handler req w := by
  simp [mwBasicAuth, hok, HandlerFunc.ServeHTTP]

theorem probeEntries_keys (l : List (String × HandlerFunc σ)) :
    (probeEntries l).map Prod.fst = l.map Prod.fst := by
  simp [probeEntries, Function.comp_def]

theorem probeEntries_length (l : List (String × HandlerFunc σ)) :
    (probeEntries l).length = l.length := by
  simp [probeEntries]

theorem MethodMap.WellFormed.probed {m : MethodMap σ} (h : m.WellFormed) :
    m.probed.WellFormed where
  nodup := by
    show ((probeEntries m.entries).map Prod.fst).Nodup
    rw [probeEntries_keys]; exact h.nodup
  single := h.single.map _
  check := h.check.map _
  serve := fun req => (h.serve req).map _

theorem MethodMap.ofList_wellFormed (l : List (String × HandlerFunc σ))
    (h : (l.map Prod.fst).Nodup) : (MethodMap.ofList l).WellFormed where
  nodup := h
  single := List.Perm.refl _
  check := List.Perm.refl _
  serve := fun _ => List.Perm.refl _

theorem rangeHasEmptyMethod_eq_true (l : List (String × HandlerFunc σ)) :
    rangeHasEmptyMethod l = true ↔ ∃ e ∈ l, e.1 = "" := by
  induction l with
  | nil => simp [rangeHasEmptyMethod]
  | cons e rest ih =>
    obtain ⟨method, handler⟩ := e
    by_cases hm : method = ""
    · simp [rangeHasEmptyMethod, hm]
    · simp [rangeHasEmptyMethod, hm, ih]

theorem rangeHasEmptyMethod_perm {l₁ l₂ : List (String × HandlerFunc σ)} (h : l₁.Perm l₂) :
    rangeHasEmptyMethod l₁ = rangeHasEmptyMethod l₂ := by
  rw [Bool.eq_iff_iff, rangeHasEmptyMethod_eq_true, rangeHasEmptyMethod_eq_true]
  constructor
  · rintro ⟨e, he, h0⟩; exact ⟨e, h.mem_iff.mp he, h0⟩
  · rintro ⟨e, he, h0⟩; exact ⟨e, h.mem_iff.mpr he, h0⟩

/-- Scanning an enumeration with unique keys calls the handler stored under the
request method. -/
theorem multiMethodServe_of_mem (l : List (String × HandlerFunc σ))
    (hnd : (l.map Prod.fst).Nodup) (req : Request) (handler : HandlerFunc σ)
    (hmem : (req.Method, handler) ∈ l) (w : World σ) :
    multiMethodServe l req w = handler req w := by
  induction l with
  | nil => simp at hmem
  | cons e rest ih =>
    obtain ⟨method, h0⟩ := e
    simp only [List.map_cons, List.nodup_cons] at hnd
    rcases List.mem_cons.mp hmem with heq | hin
    · obtain ⟨h1, h2⟩ := Prod.mk.inj heq
      simp [multiMethodServe, h1, h2, HandlerFunc.ServeHTTP]
    · have hne : req.Method ≠ method := by
        intro hc
        exact hnd.1 (List.mem_map.mpr ⟨(req.Method, handler), hin, hc⟩)
      simp only [multiMethodServe, hne, if_false]
      exact ih hnd.2 hin

/-- Scanning an enumeration without the request method ends in the 405 answer. -/
theorem multiMethodServe_of_not_mem (l : List (String × HandlerFunc σ)) (req : Request)
    (hno : ∀ e ∈ l, e.1 ≠ req.Method) (w : World σ) :
    multiMethodServe l req w =
      httpError w (StatusText StatusMethodNotAllowed) StatusMethodNotAllowed := by
  induction l with
  | nil => rfl
  | cons e rest ih =>
    obtain ⟨method, h0⟩ := e
    have hne : req.Method ≠ method := fun hc => hno (method, h0) (List.mem_cons_self _ _) hc.symm
    simp only [multiMethodServe, hne, if_false]
    exact ih (fun e he => hno e (List.mem_cons_of_mem _ he))

/-- With exactly one entry, `mwMultiMethod` is `mwMethodOnly` on that entry. -/
theorem mwMultiMethod_one (in_ : MethodMap σ) (hwf : in_.WellFormed) (method : String)
    (handler : HandlerFunc σ) (h1 : in_.entries = [(method, handler)]) :
    mwMultiMethod in_ = (some (mwMethodOnly handler method), none) := by
  have hs : in_.rangeSingle = [(method, handler)] := by
    have := hwf.single
    rw [h1] at this
    exact List.perm_singleton.mp this
  simp [mwMultiMethod, h1, hs]

/-- With two or more entries, `mwMultiMethod` validates the keys and returns the
scanning closure. -/
theorem mwMultiMethod_many (in_ : MethodMap σ) (h2 : 2 ≤ in_.entries.length) :
    mwMultiMethod in_ =
      if rangeHasEmptyMethod in_.rangeCheck then
        (none, some "mixing predetermined HTTP method with empty is not allowed")
      else
        (some (fun req w => multiMethodServe (in_.rangeServe req) req w), none) := by
  unfold mwMultiMethod
  split
  · next h0 => omega
  · next h1 _ => omega
  · rfl

theorem rangeHasEmptyMethod_eq_false (in_ : MethodMap σ) (hwf : in_.WellFormed)
    (hkeys : ∀ e ∈ in_.entries, e.1 ≠ "") : rangeHasEmptyMethod in_.rangeCheck = false := by
  rw [rangeHasEmptyMethod_perm hwf.check, Bool.eq_false_iff]
  intro hc
  obtain ⟨e, he, h0⟩ := (rangeHasEmptyMethod_eq_true _).mp hc
  exact hkeys e he h0

/-- A valid method set yields a handler, and on a request whose method is a key that
handler does what the handler stored under the key does. -/
theorem mwMultiMethod_of_mem (in_ : MethodMap σ) (hwf : in_.WellFormed)
    (hkeys : ∀ e ∈ in_.entries, e.1 ≠ "") (req : Request) (handler : HandlerFunc σ)
    (hmem : (req.Method, handler) ∈ in_.entries) :
    ∃ served, mwMultiMethod in_ = (some served, none) ∧
      ∀ w, served req w = handler req w := by
  have hm : req.Method ≠ "" := hkeys _ hmem
  rcases hl : in_.entries with _ | ⟨e1, _ | ⟨e2, rest⟩⟩
  · rw [hl] at hmem; simp at hmem
  · rw [hl] at hmem
    have he : e1 = (req.Method, handler) := (List.mem_singleton.mp hmem).symm
    subst he
    refine ⟨_, mwMultiMethod_one in_ hwf _ _ hl, fun w => ?_⟩
    simp [mwMethodOnly, hm, HandlerFunc.ServeHTTP]
  · have h2 : 2 ≤ in_.entries.length := by rw [hl]; simp
    refine ⟨fun req w => multiMethodServe (in_.rangeServe req) req w, ?_, fun w => ?_⟩
    · rw [mwMultiMethod_many in_ h2, rangeHasEmptyMethod_eq_false in_ hwf hkeys]
      rfl
    · exact multiMethodServe_of_mem _ ((hwf.serve req).map Prod.fst |>.nodup_iff.mpr hwf.nodup)
        req handler ((hwf.serve req).mem_iff.mpr hmem) w

/-- A valid, non-empty method set yields a handler, and on a request whose method is
no key that handler gives the 405 answer of `http.Error`. -/
theorem mwMultiMethod_of_not_mem (in_ : MethodMap σ) (hwf : in_.WellFormed)
    (hne : in_.entries ≠ []) (hkeys : ∀ e ∈ in_.entries, e.1 ≠ "") (req : Request)
    (hno : ∀ e ∈ in_.entries, e.1 ≠ req.Method) :
    ∃ served, mwMultiMethod in_ = (some served, none) ∧
      ∀ w, served req w =
        httpError w (StatusText StatusMethodNotAllowed) StatusMethodNotAllowed := by
  rcases hl : in_.entries with _ | ⟨e1, _ | ⟨e2, rest⟩⟩
  · exact absurd hl hne
  · obtain ⟨method, handler⟩ := e1
    have hm : method ≠ "" := hkeys (method, handler) (by rw [hl]; simp)
    have hr : req.Method ≠ method := fun hc => hno (method, handler) (by rw [hl]; simp) hc.symm
    refine ⟨_, mwMultiMethod_one in_ hwf _ _ hl, fun w => ?_⟩
    simp [mwMethodOnly, hm, hr]
  · have h2 : 2 ≤ in_.entries.length := by rw [hl]; simp
    refine ⟨fun req w => multiMethodServe (in_.rangeServe req) req w, ?_, fun w => ?_⟩
    · rw [mwMultiMethod_many in_ h2, rangeHasEmptyMethod_eq_false in_ hwf hkeys]
      rfl
    · exact multiMethodServe_of_not_mem _ req
        (fun e he => hno e ((hwf.serve req).mem_iff.mp he)) w

theorem mem_probeEntries {l : List (String × HandlerFunc σ)} {method : String}
    {handler : HandlerFunc σ} (h : (method, handler) ∈ l) :
    (method, probe method handler) ∈ probeEntries l :=
  List.mem_map.mpr ⟨(method, handler), h, rfl⟩

theorem probeEntries_key_mem {l : List (String × HandlerFunc σ)}
    {e : String × HandlerFunc (Probed σ)} (h : e ∈ probeEntries l) :
    ∃ e0 ∈ l, e0.1 = e.1 := by
  obtain ⟨e0, he0, rfl⟩ := List.mem_map.mp h
  exact ⟨e0, he0, rfl⟩

/-- What `http.Error` commits on a writer nothing was written to. -/
theorem ResponseWriter.Error_of_not_wrote (rw : ResponseWriter) (error : String) (code : Nat)
    (h : rw.wroteHeader = false) :
    (rw.Error error code).finish.status = code ∧
      (rw.Error error code).finish.body = rw.body ++ (error ++ "\n") ∧
      (rw.Error error code).finish.sent =
        (((rw.header.Del "Content-Length").Set "Content-Type" "text/plain; charset=utf-8").Set
          "X-Content-Type-Options" "nosniff") := by
  simp [ResponseWriter.Error, ResponseWriter.WriteHeader, ResponseWriter.Write,
    ResponseWriter.finish, h]

theorem getPostMap_wellFormed : getPostMap.WellFormed :=
  MethodMap.ofList_wellFormed _ (by decide)

theorem getPostMap_keys : ∀ e ∈ getPostMap.entries, e.1 ≠ "" := by
  intro e he
  have h : e = ("GET", writeBody "A") ∨ e = ("POST", writeBody "B") := by
    simpa [getPostMap, MethodMap.ofList] using he
  rcases h with rfl | rfl <;> decide

theorem getPostMap_no_delete : ∀ e ∈ getPostMap.entries, e.1 ≠ "DELETE" := by
  intro e he
  have h : e = ("GET", writeBody "A") ∨ e = ("POST", writeBody "B") := by
    simpa [getPostMap, MethodMap.ofList] using he
  rcases h with rfl | rfl <;> decide

/-- The bytes `http.Error` adds to the body: the message and a line feed. -/
theorem httpError_body (w : World σ) (error : String) (code : Nat) :
    (httpError w error code).rw.body = w.rw.body ++ (error ++ "\n") := by
  cases hw : w.rw.wroteHeader <;>
    simp [httpError, ResponseWriter.Error, ResponseWriter.WriteHeader, ResponseWriter.Write, hw]

/-- Scanning any enumeration of a mapping with unique keys is the direct lookup. -/
theorem multiMethodServe_eq_lookupDispatch (entries order : List (String × HandlerFunc σ))
    (hnd : (entries.map Prod.fst).Nodup) (hperm : order.Perm entries) (req : Request)
    (w : World σ) : multiMethodServe order req w = lookupDispatch entries req w := by
  have hnd2 : (order.map Prod.fst).Nodup := (hperm.map Prod.fst).nodup_iff.mpr hnd
  unfold lookupDispatch methodLookup
  cases hf : entries.find? (fun e => e.1 == req.Method) with
  | none =>
    have hno : ∀ e ∈ order, e.1 ≠ req.Method := by
      intro e he hc
      have := List.find?_eq_none.mp hf e (hperm.mem_iff.mp he)
      simp [hc] at this
    simpa using multiMethodServe_of_not_mem order req hno w
  | some e =>
    obtain ⟨method, handler⟩ := e
    have hmem : (method, handler) ∈ entries := List.mem_of_find?_eq_some hf
    have hkey : method = req.Method := by
      have := List.find?_some hf
      simpa using this
    subst hkey
    simpa [HandlerFunc.ServeHTTP] using
      multiMethodServe_of_mem order hnd2 req handler (hperm.mem_iff.mpr hmem) w

/-- What `mwMultiMethod` returns, by the number of entries. -/
theorem mwMultiMethod_cases (in_ : MethodMap σ) (hwf : in_.WellFormed) :
    (in_.entries = [] ∧ mwMultiMethod in_ = (none, some "requires at least one handler")) ∨
    (∃ method handler, in_.entries = [(method, handler)] ∧
      mwMultiMethod in_ = (some (mwMethodOnly handler method), none)) ∨
    (2 ≤ in_.entries.length ∧ (∃ e ∈ in_.entries, e.1 = "") ∧
      mwMultiMethod in_ =
        (none, some "mixing predetermined HTTP method with empty is not allowed")) ∨
    (2 ≤ in_.entries.length ∧ (∀ e ∈ in_.entries, e.1 ≠ "") ∧
      mwMultiMethod in_ =
        (some (fun req w => multiMethodServe (in_.rangeServe req) req w), none)) := by
  rcases hl : in_.entries with _ | ⟨e1, _ | ⟨e2, rest⟩⟩
  · left
    exact ⟨rfl, by simp [mwMultiMethod, hl]⟩
  · right; left
    exact ⟨e1.1, e1.2, rfl, mwMultiMethod_one in_ hwf e1.1 e1.2 hl⟩
  · have h2 : 2 ≤ in_.entries.length := by rw [hl]; simp
    have h2' : 2 ≤ (e1 :: e2 :: rest).length := by simp
    by_cases hempty : ∃ e ∈ in_.entries, e.1 = ""
    · right; right; left
      have hc : rangeHasEmptyMethod in_.rangeCheck = true := by
        rw [rangeHasEmptyMethod_perm hwf.check]
        exact (rangeHasEmptyMethod_eq_true _).mpr hempty
      refine ⟨h2', by rw [← hl]; exact hempty, ?_⟩
      rw [mwMultiMethod_many in_ h2, hc]
      rfl
    · right; right; right
      have hkeys : ∀ e ∈ in_.entries, e.1 ≠ "" := fun e he hc => hempty ⟨e, he, hc⟩
      refine ⟨h2', by rw [← hl]; exact hkeys, ?_⟩
      rw [mwMultiMethod_many in_ h2, rangeHasEmptyMethod_eq_false in_ hwf hkeys]
      rfl

theorem postGetMap_wellFormed : postGetMap.WellFormed where
  nodup := by decide
  single := List.Perm.swap _ _ _
  check := List.Perm.swap _ _ _
  serve := fun _ => List.Perm.swap _ _ _

/-! ## Theorems -/

/-- C1. For a non-empty method set without the empty key and a request whose method is
one of the keys, `mwMultiMethod` returns a handler without error; serving the request
with it is exactly one run of the handler stored under that key (the whole world ends
as that handler leaves it), and with every handler of the set probed the journal gains
the single call of that handler on this request and nothing else. -/
theorem mwMultiMethod_routes_to_key (in_ : MethodMap σ) (hwf : in_.WellFormed)
    (hne : in_.entries ≠ []) (hkeys : ∀ e ∈ in_.entries, e.1 ≠ "") (req : Request)
    (handler : HandlerFunc σ) (hmem : (req.Method, handler) ∈ in_.entries) :
    (∃ served, mwMultiMethod in_ = (some served, none) ∧
      ∀ w, served req w = handler req w) ∧
    (∃ served, mwMultiMethod in_.probed = (some served, none) ∧
      ∀ w, (served req w).env.journal = w.env.journal ++ [(req.Method, req)] ∧
        (served req w).forget = handler req w.forget) := by
  have _ := hne
  refine ⟨mwMultiMethod_of_mem in_ hwf hkeys req handler hmem, ?_⟩
  have hk : ∀ e ∈ in_.probed.entries, e.1 ≠ "" := by
    intro e he
    obtain ⟨e0, he0, h0⟩ := probeEntries_key_mem he
    rw [← h0]; exact hkeys e0 he0
  obtain ⟨served, hs, hrun⟩ := mwMultiMethod_of_mem in_.probed hwf.probed hk req
    (probe req.Method handler) (mem_probeEntries hmem)
  refine ⟨served, hs, fun w => ?_⟩
  rw [hrun w]
  exact ⟨rfl, rfl⟩


theorem mwMultiMethod_routes_to_key_witness :
    getPostMap.WellFormed ∧ getPostMap.entries ≠ [] ∧
    (∀ e ∈ getPostMap.entries, e.1 ≠ "") ∧
    ((requestOf "GET" []).Method, writeBody "A") ∈ getPostMap.entries ∧
    ((∃ served, mwMultiMethod getPostMap = (some served, none) ∧
      ∀ w, served (requestOf "GET" []) w = writeBody "A" (requestOf "GET" []) w) ∧
    (∃ served, mwMultiMethod getPostMap.probed = (some served, none) ∧
      ∀ w, (served (requestOf "GET" []) w).env.journal =
          w.env.journal ++ [((requestOf "GET" []).Method, requestOf "GET" [])] ∧
        (served (requestOf "GET" []) w).forget =
          writeBody "A" (requestOf "GET" []) w.forget)) :=
  ⟨getPostMap_wellFormed, List.cons_ne_nil _ _, getPostMap_keys, List.Mem.head _,
    mwMultiMethod_routes_to_key getPostMap getPostMap_wellFormed (List.cons_ne_nil _ _)
      getPostMap_keys (requestOf "GET" []) (writeBody "A") (List.Mem.head _)⟩

/-- C2. For a non-empty method set without the empty key and a request whose method is
none of the keys, `mwMultiMethod` returns a handler without error; serving the request
with it is the call `http.Error(rw, "Method Not Allowed", 405)` and nothing else, so
on a response not yet started the status is 405, and with every handler of the set
probed the journal stays as it was: no handler of the set is called. -/
theorem mwMultiMethod_unmatched_405 (in_ : MethodMap σ) (hwf : in_.WellFormed)
    (hne : in_.entries ≠ []) (hkeys : ∀ e ∈ in_.entries, e.1 ≠ "") (req : Request)
    (hno : ∀ e ∈ in_.entries, e.1 ≠ req.Method) :
    (∃ served, mwMultiMethod in_ = (some served, none) ∧
      ∀ w, served req w = httpError w "Method Not Allowed" 405 ∧
        (w.rw.wroteHeader = false → (served req w).rw.finish.status = 405)) ∧
    (∃ served, mwMultiMethod in_.probed = (some served, none) ∧
      ∀ w, (served req w).env.journal = w.env.journal ∧
        (served req w).forget = httpError w.forget "Method Not Allowed" 405) := by
  constructor
  · obtain ⟨served, hs, hrun⟩ := mwMultiMethod_of_not_mem in_ hwf hne hkeys req hno
    refine ⟨served, hs, fun w => ⟨hrun w, fun hw => ?_⟩⟩
    rw [hrun w]
    exact (ResponseWriter.Error_of_not_wrote w.rw _ _ hw).1
  · have hk : ∀ e ∈ in_.probed.entries, e.1 ≠ "" := by
      intro e he
      obtain ⟨e0, he0, h0⟩ := probeEntries_key_mem he
      rw [← h0]; exact hkeys e0 he0
    have hn : ∀ e ∈ in_.probed.entries, e.1 ≠ req.Method := by
      intro e he
      obtain ⟨e0, he0, h0⟩ := probeEntries_key_mem he
      rw [← h0]; exact hno e0 he0
    have hne2 : in_.probed.entries ≠ [] := by
      intro hc
      apply hne
      have := congrArg List.length hc
      rw [show in_.probed.entries = probeEntries in_.entries from rfl,
        probeEntries_length] at this
      exact List.length_eq_zero.mp this
    obtain ⟨served, hs, hrun⟩ := mwMultiMethod_of_not_mem in_.probed hwf.probed hne2 hk req hn
    refine ⟨served, hs, fun w => ?_⟩
    rw [hrun w]
    exact ⟨rfl, rfl⟩


theorem mwMultiMethod_unmatched_405_witness :
    getPostMap.WellFormed ∧ getPostMap.entries ≠ [] ∧
    (∀ e ∈ getPostMap.entries, e.1 ≠ "") ∧
    (∀ e ∈ getPostMap.entries, e.1 ≠ (requestOf "DELETE" []).Method) ∧
    ((∃ served, mwMultiMethod getPostMap = (some served, none) ∧
      ∀ w, served (requestOf "DELETE" []) w = httpError w "Method Not Allowed" 405 ∧
        (w.rw.wroteHeader = false →
          (served (requestOf "DELETE" []) w).rw.finish.status = 405)) ∧
    (∃ served, mwMultiMethod getPostMap.probed = (some served, none) ∧
      ∀ w, (served (requestOf "DELETE" []) w).env.journal = w.env.journal ∧
        (served (requestOf "DELETE" []) w).forget =
          httpError w.forget "Method Not Allowed" 405)) :=
  ⟨getPostMap_wellFormed, List.cons_ne_nil _ _, getPostMap_keys, getPostMap_no_delete,
    mwMultiMethod_unmatched_405 getPostMap getPostMap_wellFormed (List.cons_ne_nil _ _)
      getPostMap_keys (requestOf "DELETE" []) getPostMap_no_delete⟩

/-- C3. When the request's Basic credentials are missing or malformed (`ok` is false)
or differ from the expected pair in the username or in the password, the handler of
`mwBasicAuth` sets `WWW-Authenticate` and calls
`http.Error(rw, "name/password is required", 401)`, nothing else: on a response not yet
started the status is 401 and the `WWW-Authenticate` header of the response is the
Basic realm text, and a probed inner handler leaves no entry in the journal. -/
theorem mwBasicAuth_rejects (handler : HandlerFunc σ) (user pass : String) (req : Request)
    (hbad : req.BasicAuth.2.2 = false ∨ req.BasicAuth.1 ≠ user ∨ req.BasicAuth.2.1 ≠ pass) :
    (∀ w, mwBasicAuth handler user pass req w =
        httpError
          (headerSet w "WWW-Authenticate" "Basic realm=\"Please enter user and password\"")
          "name/password is required" 401 ∧
      (w.rw.wroteHeader = false →
        (mwBasicAuth handler user pass req w).rw.finish.status = 401 ∧
        (mwBasicAuth handler user pass req w).rw.finish.sent.Get "WWW-Authenticate" =
          "Basic realm=\"Please enter user and password\"")) ∧
    (∀ w, (mwBasicAuth (probe "handler" handler) user pass req w).env.journal =
        w.env.journal) := by
  refine ⟨fun w => ⟨mwBasicAuth_of_bad handler user pass req hbad w, fun hw => ?_⟩, fun w => ?_⟩
  · rw [mwBasicAuth_of_bad handler user pass req hbad w]
    have hw2 : (headerSet w "WWW-Authenticate"
        "Basic realm=\"Please enter user and password\"").rw.wroteHeader = false := hw
    obtain ⟨hst, _, hsent⟩ := ResponseWriter.Error_of_not_wrote _ "name/password is required"
      401 hw2
    refine ⟨hst, ?_⟩
    show (ResponseWriter.Error _ _ _).finish.sent.Get "WWW-Authenticate" = _
    rw [hsent, Header.Get_error_headers _ _ (by decide) (by decide) (by decide)]
    show (w.rw.header.Set _ _).Get _ = _
    rw [Header.Get_Set, if_pos rfl]
  · rw [mwBasicAuth_of_bad (probe "handler" handler) user pass req hbad w]
    rfl


theorem mwBasicAuth_rejects_witness :
    ((requestOf "GET" (authorization "YWxpY2U6d3Jvbmc=")).BasicAuth.2.2 = false ∨
      (requestOf "GET" (authorization "YWxpY2U6d3Jvbmc=")).BasicAuth.1 ≠ "alice" ∨
      (requestOf "GET" (authorization "YWxpY2U6d3Jvbmc=")).BasicAuth.2.1 ≠ "secret") ∧
    ((∀ w, mwBasicAuth (writeBody "A") "alice" "secret"
          (requestOf "GET" (authorization "YWxpY2U6d3Jvbmc=")) w =
        httpError
          (headerSet w "WWW-Authenticate" "Basic realm=\"Please enter user and password\"")
          "name/password is required" 401 ∧
      (w.rw.wroteHeader = false →
        (mwBasicAuth (writeBody "A") "alice" "secret"
          (requestOf "GET" (authorization "YWxpY2U6d3Jvbmc=")) w).rw.finish.status = 401 ∧
        (mwBasicAuth (writeBody "A") "alice" "secret"
          (requestOf "GET" (authorization "YWxpY2U6d3Jvbmc=")) w).rw.finish.sent.Get
            "WWW-Authenticate" = "Basic realm=\"Please enter user and password\"")) ∧
    (∀ w, (mwBasicAuth (probe "handler" (writeBody "A")) "alice" "secret"
          (requestOf "GET" (authorization "YWxpY2U6d3Jvbmc=")) w).env.journal =
        w.env.journal)) :=
  ⟨Or.inr (Or.inr (by decide)),
    mwBasicAuth_rejects (writeBody "A") "alice" "secret"
      (requestOf "GET" (authorization "YWxpY2U6d3Jvbmc=")) (Or.inr (Or.inr (by decide)))⟩

/-- C4. When the request carries well-formed Basic credentials equal to the expected
username and password, serving it through `mwBasicAuth` is exactly one run of the inner
handler on the same request: the whole world, response included, ends as the inner
handler leaves it, and a probed inner handler is entered in the journal once. -/
theorem mwBasicAuth_accepts (handler : HandlerFunc σ) (user pass : String) (req : Request)
    (hok : req.BasicAuth = (user, pass, true)) :
    (∀ w, mwBasicAuth handler user pass req w = handler req w) ∧
    (∀ w, (mwBasicAuth (probe "handler" handler) user pass req w).env.journal =
        w.env.journal ++ [("handler", req)] ∧
      (mwBasicAuth (probe "handler" handler) user pass req w).forget =
        handler req w.forget) := by
  refine ⟨mwBasicAuth_of_good handler user pass req hok, fun w => ?_⟩
  rw [mwBasicAuth_of_good (probe "handler" handler) user pass req hok w]
  exact ⟨rfl, rfl⟩


theorem mwBasicAuth_accepts_witness :
    (requestOf "GET" (authorization "YWxpY2U6c2VjcmV0")).BasicAuth = ("alice", "secret", true) ∧
    ((∀ w, mwBasicAuth (writeBody "A") "alice" "secret"
          (requestOf "GET" (authorization "YWxpY2U6c2VjcmV0")) w =
        writeBody "A" (requestOf "GET" (authorization "YWxpY2U6c2VjcmV0")) w) ∧
    (∀ w, (mwBasicAuth (probe "handler" (writeBody "A")) "alice" "secret"
          (requestOf "GET" (authorization "YWxpY2U6c2VjcmV0")) w).env.journal =
        w.env.journal ++ [("handler", requestOf "GET" (authorization "YWxpY2U6c2VjcmV0"))] ∧
      (mwBasicAuth (probe "handler" (writeBody "A")) "alice" "secret"
          (requestOf "GET" (authorization "YWxpY2U6c2VjcmV0")) w).forget =
        writeBody "A" (requestOf "GET" (authorization "YWxpY2U6c2VjcmV0")) w.forget)) :=
  ⟨by decide,
    mwBasicAuth_accepts (writeBody "A") "alice" "secret"
      (requestOf "GET" (authorization "YWxpY2U6c2VjcmV0")) (by decide)⟩

/-- C5. On a map with no entries (empty or nil), whatever its loops would enumerate,
`mwMultiMethod` returns the nil handler and the error "requires at least one handler". -/
theorem mwMultiMethod_no_entries (rangeSingle rangeCheck : List (String × HandlerFunc σ))
    (rangeServe : Request → List (String × HandlerFunc σ)) :
    mwMultiMethod { entries := [], rangeSingle := rangeSingle, rangeCheck := rangeCheck,
                    rangeServe := rangeServe } =
      (none, some "requires at least one handler") := by
  simp [mwMultiMethod]

/-- C6. On a map with two or more entries one of whose keys is the empty string,
`mwMultiMethod` returns the nil handler and an error, in whatever order the validation
loop enumerates the entries. -/
theorem mwMultiMethod_mixed_empty_key (in_ : MethodMap σ)
    (hcheck : in_.rangeCheck.Perm in_.entries) (h2 : 2 ≤ in_.entries.length)
    (hempty : ∃ e ∈ in_.entries, e.1 = "") :
    mwMultiMethod in_ =
      (none, some "mixing predetermined HTTP method with empty is not allowed") := by
  have hc : rangeHasEmptyMethod in_.rangeCheck = true := by
    rw [rangeHasEmptyMethod_perm hcheck]
    exact (rangeHasEmptyMethod_eq_true _).mpr hempty
  rw [mwMultiMethod_many in_ h2, hc]
  rfl


theorem mwMultiMethod_mixed_empty_key_witness :
    mixedMap.rangeCheck.Perm mixedMap.entries ∧ 2 ≤ mixedMap.entries.length ∧
    (∃ e ∈ mixedMap.entries, e.1 = "") ∧
    mwMultiMethod mixedMap =
      (none, some "mixing predetermined HTTP method with empty is not allowed") :=
  ⟨List.Perm.swap _ _ _, Nat.le_refl 2, ⟨("", writeBody "A"), List.Mem.head _, rfl⟩,
    mwMultiMethod_mixed_empty_key mixedMap (List.Perm.swap _ _ _) (Nat.le_refl 2)
      ⟨("", writeBody "A"), List.Mem.head _, rfl⟩⟩

/-- C7. On the one-entry map with the empty key, `mwMultiMethod` succeeds and returns
the stored handler itself; so every request, whatever its method, is served by exactly
one run of that handler, as the journal of the probed map shows. -/
theorem mwMultiMethod_any_method (in_ : MethodMap σ) (hwf : in_.WellFormed)
    (handler : HandlerFunc σ) (h1 : in_.entries = [("", handler)]) :
    mwMultiMethod in_ = (some handler, none) ∧
    (∃ served, mwMultiMethod in_.probed = (some served, none) ∧
      ∀ req w, (served req w).env.journal = w.env.journal ++ [("", req)] ∧
        (served req w).forget = handler req w.forget) := by
  constructor
  · rw [mwMultiMethod_one in_ hwf "" handler h1]
    rfl
  · refine ⟨probe "" handler, ?_, fun req w => ⟨rfl, rfl⟩⟩
    have hp : in_.probed.entries = [("", probe "" handler)] := by
      show probeEntries in_.entries = _
      rw [h1]; rfl
    rw [mwMultiMethod_one in_.probed hwf.probed "" _ hp]
    rfl


theorem mwMultiMethod_any_method_witness :
    anyMethodMap.WellFormed ∧ anyMethodMap.entries = [("", writeBody "A")] ∧
    (mwMultiMethod anyMethodMap = (some (writeBody "A"), none) ∧
    (∃ served, mwMultiMethod anyMethodMap.probed = (some served, none) ∧
      ∀ req w, (served req w).env.journal = w.env.journal ++ [("", req)] ∧
        (served req w).forget = writeBody "A" req w.forget)) :=
  ⟨MethodMap.ofList_wellFormed _ (by decide), rfl,
    mwMultiMethod_any_method anyMethodMap (MethodMap.ofList_wellFormed _ (by decide))
      (writeBody "A") rfl⟩

/-- C8. For a non-empty required method, the handler of `mwMethodOnly` runs the inner
handler, once, exactly when the request method is that very string; on any other
method it calls `http.Error(rw, "Method Not Allowed", 405)` and does not run it. -/
theorem mwMethodOnly_gate (handler : HandlerFunc σ) (method : String) (hm : method ≠ "")
    (req : Request) :
    (∀ w, (req.Method = method → mwMethodOnly handler method req w = handler req w) ∧
      (req.Method ≠ method →
        mwMethodOnly handler method req w = httpError w "Method Not Allowed" 405 ∧
        (w.rw.wroteHeader = false →
          (mwMethodOnly handler method req w).rw.finish.status = 405))) ∧
    (∀ w, ((mwMethodOnly (probe "handler" handler) method req w).env.journal =
          w.env.journal ++ [("handler", req)] ↔ req.Method = method) ∧
      (req.Method ≠ method →
        (mwMethodOnly (probe "handler" handler) method req w).env.journal =
          w.env.journal)) := by
  have hyes : ∀ (τ : Type) (h : HandlerFunc τ) (w : World τ), req.Method = method →
      mwMethodOnly h method req w = h req w := by
    intro τ h w he
    simp [mwMethodOnly, hm, he, HandlerFunc.ServeHTTP]
  have hno : ∀ (τ : Type) (h : HandlerFunc τ) (w : World τ), req.Method ≠ method →
      mwMethodOnly h method req w = httpError w "Method Not Allowed" 405 := by
    intro τ h w he
    simp [mwMethodOnly, hm, he, StatusText, StatusMethodNotAllowed]
  refine ⟨fun w => ⟨hyes σ handler w, fun he => ⟨hno σ handler w he, fun hw => ?_⟩⟩,
    fun w => ⟨⟨fun hj => ?_, fun he => ?_⟩, fun he => ?_⟩⟩
  · rw [hno σ handler w he]
    exact (ResponseWriter.Error_of_not_wrote w.rw _ _ hw).1
  · by_contra he
    rw [hno _ (probe "handler" handler) w he] at hj
    have hlen := congrArg List.length hj
    simp [httpError] at hlen
  · rw [hyes _ (probe "handler" handler) w he]
    rfl
  · rw [hno _ (probe "handler" handler) w he]
    rfl


theorem mwMethodOnly_gate_witness :
    "GET" ≠ "" ∧
    ((∀ w, ((requestOf "get" []).Method = "GET" →
          mwMethodOnly (writeBody "A") "GET" (requestOf "get" []) w =
            writeBody "A" (requestOf "get" []) w) ∧
      ((requestOf "get" []).Method ≠ "GET" →
        mwMethodOnly (writeBody "A") "GET" (requestOf "get" []) w =
          httpError w "Method Not Allowed" 405 ∧
        (w.rw.wroteHeader = false →
          (mwMethodOnly (writeBody "A") "GET" (requestOf "get" []) w).rw.finish.status =
            405))) ∧
    (∀ w, ((mwMethodOnly (probe "handler" (writeBody "A")) "GET"
            (requestOf "get" []) w).env.journal =
          w.env.journal ++ [("handler", requestOf "get" [])] ↔
          (requestOf "get" []).Method = "GET") ∧
      ((requestOf "get" []).Method ≠ "GET" →
        (mwMethodOnly (probe "handler" (writeBody "A")) "GET"
            (requestOf "get" []) w).env.journal = w.env.journal))) :=
  ⟨by decide, mwMethodOnly_gate (writeBody "A") "GET" (by decide) (requestOf "get" [])⟩

/-- C9. With the empty method string `mwMethodOnly` returns the given handler itself. -/
theorem mwMethodOnly_empty_method (handler : HandlerFunc σ) :
    mwMethodOnly handler "" = handler := by
  simp [mwMethodOnly]

/-- C10, as stated, fails: with version `1.16`, an inner handler that sets the `Server`
header itself and writes a body produces a final response whose `Server` header is
`nginx`, not `shell2http 1.16`. -/
theorem mwCommonHeaders_server_overwritten :
    (mwCommonHeaders "1.16" overwriteServer (requestOf "GET" []) World.start).rw.finish.sent.Get
        "Server" = "nginx" ∧
    (mwCommonHeaders "1.16" overwriteServer (requestOf "GET" []) World.start).rw.finish.sent.Get
        "Server" ≠ "shell2http " ++ "1.16" := by
  constructor
  · decide
  · decide

/-- C10, amended. If the response has not been started when the handler of
`mwCommonHeaders` is entered, and the inner handler is one that leaves the `Server`
entry of the header map alone (from any world with an unstarted response, the `Server`
header of the response it produces is the one the header map held when it was called),
then the final response carries `Server` equal to `shell2http ` followed by the
version, whatever status the inner handler answers with. -/
theorem mwCommonHeaders_server_kept (VERSION : String) (handler : HandlerFunc σ)
    (req : Request) (w : World σ) (hw : w.rw.wroteHeader = false)
    (hkeep : ∀ w1 : World σ, w1.rw.wroteHeader = false →
      (handler req w1).rw.finish.sent.Get "Server" = w1.rw.header.Get "Server") :
    (mwCommonHeaders VERSION handler req w).rw.finish.sent.Get "Server" =
      "shell2http " ++ VERSION := by
  show (handler req (headerSet w "Server" ("shell2http " ++ VERSION))).rw.finish.sent.Get
    "Server" = _
  rw [hkeep (headerSet w "Server" ("shell2http " ++ VERSION)) hw]
  show (w.rw.header.Set _ _).Get _ = _
  rw [Header.Get_Set, if_pos rfl]


theorem mwCommonHeaders_server_kept_witness :
    World.start.rw.wroteHeader = false ∧
    (∀ w1 : World Unit, w1.rw.wroteHeader = false →
      (mwMethodOnly (writeBody "A") "POST" (requestOf "GET" []) w1).rw.finish.sent.Get
        "Server" = w1.rw.header.Get "Server") ∧
    (mwCommonHeaders "1.16" (mwMethodOnly (writeBody "A") "POST") (requestOf "GET" [])
        World.start).rw.finish.sent.Get "Server" = "shell2http " ++ "1.16" ∧
    (mwCommonHeaders "1.16" (mwMethodOnly (writeBody "A") "POST") (requestOf "GET" [])
        World.start).rw.finish.status = 405 :=
  have hkeep : ∀ w1 : World Unit, w1.rw.wroteHeader = false →
      (mwMethodOnly (writeBody "A") "POST" (requestOf "GET" []) w1).rw.finish.sent.Get
        "Server" = w1.rw.header.Get "Server" := by
    intro w1 h1
    show (ResponseWriter.Error w1.rw "Method Not Allowed" 405).finish.sent.Get "Server" = _
    rw [(ResponseWriter.Error_of_not_wrote w1.rw _ _ h1).2.2]
    exact Header.Get_error_headers _ _ (by decide) (by decide) (by decide)
  ⟨rfl, hkeep,
    mwCommonHeaders_server_kept "1.16" (mwMethodOnly (writeBody "A") "POST")
      (requestOf "GET" []) World.start rfl hkeep, by decide⟩

/-- C11, as stated, fails: the 405 answer of `mwMethodOnly` to a `GET` request on a
`POST`-only handler has the body `Method Not Allowed` followed by a line feed, and the
401 answer of `mwBasicAuth` to a request without credentials has the body
`name/password is required` followed by a line feed; neither body is the bare text. -/
theorem error_body_ends_with_newline :
    (mwMethodOnly (writeBody "A") "POST" (requestOf "GET" []) World.start).rw.finish.status
      = 405 ∧
    (mwMethodOnly (writeBody "A") "POST" (requestOf "GET" []) World.start).rw.finish.body
      = "Method Not Allowed\n" ∧
    (mwMethodOnly (writeBody "A") "POST" (requestOf "GET" []) World.start).rw.finish.body
      ≠ "Method Not Allowed" ∧
    (mwBasicAuth (writeBody "A") "alice" "secret" (requestOf "GET" [])
      World.start).rw.finish.status = 401 ∧
    (mwBasicAuth (writeBody "A") "alice" "secret" (requestOf "GET" [])
      World.start).rw.finish.body = "name/password is required\n" ∧
    (mwBasicAuth (writeBody "A") "alice" "secret" (requestOf "GET" [])
      World.start).rw.finish.body ≠ "name/password is required" := by
  refine ⟨?_, ?_, ?_, ?_, ?_, ?_⟩ <;> decide

/-- C11, amended. The error answers this file produces itself add to the body the
named text followed by a line feed: `Method Not Allowed` and a line feed for the 405 of
`mwMethodOnly` (non-empty method, other request method) and of `mwMultiMethod`
(non-empty set without empty key, no key equal to the request method), and
`name/password is required` and a line feed for the 401 of `mwBasicAuth`. -/
theorem error_bodies (handler : HandlerFunc σ) (req : Request) (w : World σ) :
    (∀ method, method ≠ "" → req.Method ≠ method →
      (mwMethodOnly handler method req w).rw.body =
        w.rw.body ++ "Method Not Allowed\n") ∧
    (∀ in_ : MethodMap σ, in_.WellFormed → in_.entries ≠ [] →
      (∀ e ∈ in_.entries, e.1 ≠ "") → (∀ e ∈ in_.entries, e.1 ≠ req.Method) →
      ∃ served, mwMultiMethod in_ = (some served, none) ∧
        (served req w).rw.body = w.rw.body ++ "Method Not Allowed\n") ∧
    (∀ user pass,
      (req.BasicAuth.2.2 = false ∨ req.BasicAuth.1 ≠ user ∨ req.BasicAuth.2.1 ≠ pass) →
      (mwBasicAuth handler user pass req w).rw.body =
        w.rw.body ++ "name/password is required\n") := by
  refine ⟨fun method hm hr => ?_, fun in_ hwf hne hkeys hno => ?_, fun user pass hbad => ?_⟩
  · have : mwMethodOnly handler method req w = httpError w "Method Not Allowed" 405 := by
      simp [mwMethodOnly, hm, hr, StatusText, StatusMethodNotAllowed]
    rw [this, httpError_body]
    rfl
  · obtain ⟨served, hs, hrun⟩ := mwMultiMethod_of_not_mem in_ hwf hne hkeys req hno
    refine ⟨served, hs, ?_⟩
    rw [hrun w, httpError_body]
    rfl
  · rw [mwBasicAuth_of_bad handler user pass req hbad w, httpError_body]
    rfl

theorem error_bodies_witness :
    (mwMethodOnly (writeBody "A") "GET" (requestOf "DELETE" []) World.start).rw.body =
      World.start.rw.body ++ "Method Not Allowed\n" ∧
    (∃ served, mwMultiMethod getPostMap = (some served, none) ∧
      (served (requestOf "DELETE" []) World.start).rw.body =
        World.start.rw.body ++ "Method Not Allowed\n") ∧
    (mwBasicAuth (writeBody "A") "alice" "secret" (requestOf "DELETE" []) World.start).rw.body =
      World.start.rw.body ++ "name/password is required\n" :=
  ⟨(error_bodies (writeBody "A") (requestOf "DELETE" []) World.start).1 "GET"
      (by decide) (by decide),
    (error_bodies (writeBody "A") (requestOf "DELETE" []) World.start).2.1 getPostMap
      getPostMap_wellFormed (List.cons_ne_nil _ _) getPostMap_keys getPostMap_no_delete,
    (error_bodies (writeBody "A") (requestOf "DELETE" []) World.start).2.2 "alice" "secret"
      (Or.inl (by decide))⟩

/-- C12. The record `mwLogging` writes has as its client address the first `X-Real-Ip`
value, a comma and a space, and the raw remote address when the request header map
holds `X-Real-Ip` with at least one value, so that the address then begins with that
first value; it is the raw remote address alone when the header is absent or holds an
empty list of values. -/
theorem mwLogging_client_address (handler : HandlerFunc σ) (req : Request) (w : World σ) :
    (mwLogging handler req w).log =
      (handler req w).log ++
        [logFormat req.Host (loggedRemoteAddr req) req.Method req.RequestURI req.UserAgent
          (Duration.String
            (Duration.Round (timeSince (handler req w).now w.now) Millisecond))] ∧
    (∀ first rest, req.Header.lookup "X-Real-Ip" = some (first :: rest) →
      loggedRemoteAddr req = first ++ ", " ++ req.RemoteAddr ∧
      first.data <+: (loggedRemoteAddr req).data) ∧
    (req.Header.lookup "X-Real-Ip" = none ∨ req.Header.lookup "X-Real-Ip" = some [] →
      loggedRemoteAddr req = req.RemoteAddr) := by
  refine ⟨rfl, fun first rest h => ?_, fun h => ?_⟩
  · have haddr : loggedRemoteAddr req = first ++ ", " ++ req.RemoteAddr := by
      simp [loggedRemoteAddr, h]
    refine ⟨haddr, ?_⟩
    rw [haddr]
    exact ⟨(", " ++ req.RemoteAddr).data, by simp [String.append_assoc]⟩
  · rcases h with h | h <;> simp [loggedRemoteAddr, h]

theorem mwLogging_client_address_witness :
    proxiedRequest.Header.lookup "X-Real-Ip" = some ("1.2.3.4" :: ["5.6.7.8"]) ∧
    loggedRemoteAddr proxiedRequest = "1.2.3.4" ++ ", " ++ proxiedRequest.RemoteAddr ∧
    "1.2.3.4".data <+: (loggedRemoteAddr proxiedRequest).data ∧
    ((requestOf "GET" [("X-Real-Ip", [])]).Header.lookup "X-Real-Ip" = none ∨
      (requestOf "GET" [("X-Real-Ip", [])]).Header.lookup "X-Real-Ip" = some []) ∧
    loggedRemoteAddr (requestOf "GET" [("X-Real-Ip", [])]) =
      (requestOf "GET" [("X-Real-Ip", [])]).RemoteAddr :=
  ⟨by decide,
    ((mwLogging_client_address slowNotFound proxiedRequest World.start).2.1
      "1.2.3.4" ["5.6.7.8"] (by decide)).1,
    ((mwLogging_client_address slowNotFound proxiedRequest World.start).2.1
      "1.2.3.4" ["5.6.7.8"] (by decide)).2,
    Or.inr (by decide),
    (mwLogging_client_address slowNotFound (requestOf "GET" [("X-Real-Ip", [])])
      World.start).2.2 (Or.inr (by decide))⟩

/-- C13. Serving a request through `mwLogging` runs the inner handler once on the same
request, from the same world: response writer (status, headers, body), clock and
program state end exactly as the inner handler leaves them, and a probed inner handler
is entered in the journal once. -/
theorem mwLogging_response_unchanged (handler : HandlerFunc σ) (req : Request)
    (w : World σ) :
    (mwLogging handler req w).rw = (handler req w).rw ∧
    (mwLogging handler req w).env = (handler req w).env ∧
    (mwLogging handler req w).now = (handler req w).now ∧
    (∀ wp : World (Probed σ),
      (mwLogging (probe "handler" handler) req wp).env.journal =
        wp.env.journal ++ [("handler", req)] ∧
      (mwLogging (probe "handler" handler) req wp).forget.rw = (handler req wp.forget).rw) :=
  ⟨rfl, rfl, rfl, fun _ => ⟨rfl, rfl⟩⟩

/-- C14. Serving a request through `mwLogging` adds exactly one record to the log,
behind everything the inner handler logged itself and whatever status it answered
with; the record is the host, the client address, the method, the request URI, the
user agent in double quotes and the elapsed time rounded to the millisecond, in this
order and separated by single spaces.  For a handler that takes 150.4 ms, logs a line
and answers 404, the log ends with that line and then the record with `150ms`. -/
theorem mwLogging_one_record (handler : HandlerFunc σ) (req : Request) (w : World σ) :
    (mwLogging handler req w).log =
      (handler req w).log ++
        [req.Host ++ " " ++ loggedRemoteAddr req ++ " " ++ req.Method ++ " " ++
          req.RequestURI ++ " \"" ++ req.UserAgent ++ "\" " ++
          Duration.String
            (Duration.Round (timeSince (handler req w).now w.now) Millisecond)] ∧
    (mwLogging handler req w).log.length = (handler req w).log.length + 1 ∧
    (mwLogging slowNotFound proxiedRequest World.start).log =
      ["lookup failed",
        "localhost:8080 1.2.3.4, 10.0.0.7:51234 GET /date \"curl/8\" 150ms"] ∧
    (mwLogging slowNotFound proxiedRequest World.start).rw.finish.status = 404 := by
  refine ⟨rfl, ?_, by decide, by decide⟩
  simp [mwLogging, logPrintf, HandlerFunc.ServeHTTP]

/-- C15. The handler of `mwCommonHeaders` always delegates: serving a request is one
run of the inner handler on the same request, started from the world in which only the
header map of the response writer has changed, and in that map `Server` holds the
single value `shell2http ` followed by the version, whatever it held before; a probed
inner handler is entered in the journal once. -/
theorem mwCommonHeaders_sets_then_delegates (VERSION : String) (handler : HandlerFunc σ)
    (req : Request) (w : World σ) :
    mwCommonHeaders VERSION handler req w =
      handler req (headerSet w "Server" ("shell2http " ++ VERSION)) ∧
    (headerSet w "Server" ("shell2http " ++ VERSION)).rw.header.Get "Server" =
      "shell2http " ++ VERSION ∧
    (headerSet w "Server" ("shell2http " ++ VERSION)).rw.header.lookup "Server" =
      some ["shell2http " ++ VERSION] ∧
    (headerSet w "Server" ("shell2http " ++ VERSION)).rw.header =
      w.rw.header.Set "Server" ("shell2http " ++ VERSION) ∧
    (headerSet w "Server" ("shell2http " ++ VERSION)).rw.wroteHeader = w.rw.wroteHeader ∧
    (headerSet w "Server" ("shell2http " ++ VERSION)).rw.status = w.rw.status ∧
    (headerSet w "Server" ("shell2http " ++ VERSION)).rw.sent = w.rw.sent ∧
    (headerSet w "Server" ("shell2http " ++ VERSION)).rw.body = w.rw.body ∧
    (headerSet w "Server" ("shell2http " ++ VERSION)).log = w.log ∧
    (headerSet w "Server" ("shell2http " ++ VERSION)).now = w.now ∧
    (headerSet w "Server" ("shell2http " ++ VERSION)).env = w.env ∧
    (∀ wp : World (Probed σ),
      (mwCommonHeaders VERSION (probe "handler" handler) req wp).env.journal =
        wp.env.journal ++ [("handler", req)]) := by
  refine ⟨rfl, ?_, ?_, rfl, rfl, rfl, rfl, rfl, rfl, rfl, rfl, fun _ => rfl⟩
  · show (w.rw.header.Set _ _).Get _ = _
    rw [Header.Get_Set, if_pos rfl]
  · have hk : CanonicalMIMEHeaderKey "Server" = "Server" := by decide
    show Header.lookup (w.rw.header.Set _ _) _ = _
    simp [Header.Set, Header.lookup, hk]

/-- C16. On a one-entry method set `mwMultiMethod` succeeds, and the handler it returns
is `mwMethodOnly` applied to the entry: the two behave alike on every request, whether
the key is empty or not. -/
theorem mwMultiMethod_single_is_mwMethodOnly (in_ : MethodMap σ) (hwf : in_.WellFormed)
    (method : String) (handler : HandlerFunc σ) (h1 : in_.entries = [(method, handler)]) :
    ∃ served, mwMultiMethod in_ = (some served, none) ∧
      served = mwMethodOnly handler method ∧
      ∀ req w, served req w = mwMethodOnly handler method req w :=
  ⟨mwMethodOnly handler method, mwMultiMethod_one in_ hwf method handler h1, rfl,
    fun _ _ => rfl⟩

theorem mwMultiMethod_single_is_mwMethodOnly_witness :
    getOnlyMap.WellFormed ∧ getOnlyMap.entries = [("GET", writeBody "A")] ∧
    ∃ served, mwMultiMethod getOnlyMap = (some served, none) ∧
      served = mwMethodOnly (writeBody "A") "GET" ∧
      ∀ req w, served req w = mwMethodOnly (writeBody "A") "GET" req w :=
  ⟨MethodMap.ofList_wellFormed _ (by decide), rfl,
    mwMultiMethod_single_is_mwMethodOnly getOnlyMap
      (MethodMap.ofList_wellFormed _ (by decide)) "GET" (writeBody "A") rfl⟩

/-- C17. For a mapping with two or more entries, unique keys and no empty key, any two
enumerations of the entries give scanning dispatchers that agree on every request and
equal the direct lookup of the request method in the mapping; so two method maps with
the same entries, whatever their loops enumerate, yield handlers that agree on every
request and equal that lookup. -/
theorem mwMultiMethod_order_irrelevant (in1 in2 : MethodMap σ) (hwf1 : in1.WellFormed)
    (hwf2 : in2.WellFormed) (hsame : in2.entries.Perm in1.entries)
    (hlen : 2 ≤ in1.entries.length) (hkeys : ∀ e ∈ in1.entries, e.1 ≠ "") :
    (∀ order1 order2 : List (String × HandlerFunc σ), order1.Perm in1.entries →
      order2.Perm in1.entries → ∀ req w,
      multiMethodServe order1 req w = multiMethodServe order2 req w ∧
      multiMethodServe order1 req w = lookupDispatch in1.entries req w) ∧
    (∃ served1 served2, mwMultiMethod in1 = (some served1, none) ∧
      mwMultiMethod in2 = (some served2, none) ∧
      ∀ req w, served1 req w = served2 req w ∧
        served1 req w = lookupDispatch in1.entries req w) := by
  have hlen2 : 2 ≤ in2.entries.length := by rw [hsame.length_eq]; exact hlen
  have hkeys2 : ∀ e ∈ in2.entries, e.1 ≠ "" := fun e he => hkeys e (hsame.mem_iff.mp he)
  constructor
  · intro order1 order2 h1 h2 req w
    rw [multiMethodServe_eq_lookupDispatch _ _ hwf1.nodup h1,
      multiMethodServe_eq_lookupDispatch _ _ hwf1.nodup h2]
    exact ⟨rfl, rfl⟩
  · refine ⟨fun req w => multiMethodServe (in1.rangeServe req) req w,
      fun req w => multiMethodServe (in2.rangeServe req) req w, ?_, ?_, fun req w => ?_⟩
    · rw [mwMultiMethod_many in1 hlen, rangeHasEmptyMethod_eq_false in1 hwf1 hkeys]
      rfl
    · rw [mwMultiMethod_many in2 hlen2, rangeHasEmptyMethod_eq_false in2 hwf2 hkeys2]
      rfl
    · have e1 := multiMethodServe_eq_lookupDispatch _ _ hwf1.nodup (hwf1.serve req) req w
      have e2 := multiMethodServe_eq_lookupDispatch _ _ hwf1.nodup
        ((hwf2.serve req).trans hsame) req w
      exact ⟨e1.trans e2.symm, e1⟩

theorem mwMultiMethod_order_irrelevant_witness :
    getPostMap.WellFormed ∧ postGetMap.WellFormed ∧
    postGetMap.entries.Perm getPostMap.entries ∧ 2 ≤ getPostMap.entries.length ∧
    (∀ e ∈ getPostMap.entries, e.1 ≠ "") ∧
    ((∀ order1 order2 : List (String × HandlerFunc Unit), order1.Perm getPostMap.entries →
      order2.Perm getPostMap.entries → ∀ req w,
      multiMethodServe order1 req w = multiMethodServe order2 req w ∧
      multiMethodServe order1 req w = lookupDispatch getPostMap.entries req w) ∧
    (∃ served1 served2, mwMultiMethod getPostMap = (some served1, none) ∧
      mwMultiMethod postGetMap = (some served2, none) ∧
      ∀ req w, served1 req w = served2 req w ∧
        served1 req w = lookupDispatch getPostMap.entries req w)) :=
  ⟨getPostMap_wellFormed, postGetMap_wellFormed, List.Perm.refl _, Nat.le_refl 2,
    getPostMap_keys,
    mwMultiMethod_order_irrelevant getPostMap postGetMap getPostMap_wellFormed
      postGetMap_wellFormed (List.Perm.refl _) (Nat.le_refl 2) getPostMap_keys⟩

/-- C18. `mwMultiMethod` returns a handler and no error exactly when the method set is
non-empty and has one entry or no empty key; otherwise it returns the nil handler and
an error; it returns neither a handler together with an error nor nothing at all. -/
theorem mwMultiMethod_handler_iff (in_ : MethodMap σ) (hwf : in_.WellFormed) :
    ((∃ served, mwMultiMethod in_ = (some served, none)) ↔
      (in_.entries ≠ [] ∧ (in_.entries.length = 1 ∨ ∀ e ∈ in_.entries, e.1 ≠ ""))) ∧
    (¬ (in_.entries ≠ [] ∧ (in_.entries.length = 1 ∨ ∀ e ∈ in_.entries, e.1 ≠ "")) →
      ∃ err, mwMultiMethod in_ = (none, some err)) ∧
    (∀ served err, mwMultiMethod in_ ≠ (some served, some err)) ∧
    mwMultiMethod in_ ≠ (none, none) := by
  rcases mwMultiMethod_cases in_ hwf with ⟨h0, hr⟩ | ⟨method, handler, h1, hr⟩ |
    ⟨h2, hempty, hr⟩ | ⟨h2, hkeys, hr⟩
  · refine ⟨⟨fun ⟨served, hs⟩ => ?_, fun ⟨hne, _⟩ => absurd h0 hne⟩,
      fun _ => ⟨_, hr⟩, fun served err hc => ?_, fun hc => ?_⟩
    · rw [hr] at hs; simp at hs
    · rw [hr] at hc; simp at hc
    · rw [hr] at hc; simp at hc
  · refine ⟨⟨fun _ => ⟨by rw [h1]; simp, Or.inl (by rw [h1]; rfl)⟩, fun _ => ⟨_, hr⟩⟩,
      fun hn => absurd ⟨by rw [h1]; simp, Or.inl (by rw [h1]; rfl)⟩ hn,
      fun served err hc => ?_, fun hc => ?_⟩
    · rw [hr] at hc; simp at hc
    · rw [hr] at hc; simp at hc
  · refine ⟨⟨fun ⟨served, hs⟩ => ?_, fun ⟨_, hor⟩ => ?_⟩,
      fun _ => ⟨_, hr⟩, fun served err hc => ?_, fun hc => ?_⟩
    · rw [hr] at hs; simp at hs
    · rcases hor with h1 | hk
      · omega
      · obtain ⟨e, he, h0⟩ := hempty
        exact absurd h0 (hk e he)
    · rw [hr] at hc; simp at hc
    · rw [hr] at hc; simp at hc
  · have hne : in_.entries ≠ [] := by
      intro hc
      rw [hc] at h2
      simp at h2
    refine ⟨⟨fun _ => ⟨hne, Or.inr hkeys⟩, fun _ => ⟨_, hr⟩⟩,
      fun hn => absurd ⟨hne, Or.inr hkeys⟩ hn, fun served err hc => ?_, fun hc => ?_⟩
    · rw [hr] at hc; simp at hc
    · rw [hr] at hc; simp at hc

theorem mwMultiMethod_handler_iff_witness :
    postGetMap.WellFormed ∧
    (((∃ served, mwMultiMethod postGetMap = (some served, none)) ↔
      (postGetMap.entries ≠ [] ∧
        (postGetMap.entries.length = 1 ∨ ∀ e ∈ postGetMap.entries, e.1 ≠ ""))) ∧
    (¬ (postGetMap.entries ≠ [] ∧
        (postGetMap.entries.length = 1 ∨ ∀ e ∈ postGetMap.entries, e.1 ≠ "")) →
      ∃ err, mwMultiMethod postGetMap = (none, some err)) ∧
    (∀ served err, mwMultiMethod postGetMap ≠ (some served, some err)) ∧
    mwMultiMethod postGetMap ≠ (none, none)) :=
  ⟨postGetMap_wellFormed, mwMultiMethod_handler_iff postGetMap postGetMap_wellFormed⟩

/-- C19. A request without `Authorization` header, or whose header does not parse as
Basic credentials, carries no credentials (`ok` is false), and such a request is
answered with 401 by `mwBasicAuth` for every expected pair, the pair of two empty
strings included, without a call of the inner handler; a request whose credentials
parse to the empty username and the empty password is served by the inner handler
when the expected pair is the two empty strings. -/
theorem mwBasicAuth_absent_is_not_empty (handler : HandlerFunc σ) (req : Request) :
    (req.Header.lookup "Authorization" = none → req.BasicAuth = ("", "", false)) ∧
    ((parseBasicAuth (req.Header.Get "Authorization")).2.2 = false →
      req.BasicAuth.2.2 = false) ∧
    (req.BasicAuth.2.2 = false → ∀ user pass : String,
      (∀ w, mwBasicAuth handler user pass req w =
          httpError
            (headerSet w "WWW-Authenticate" "Basic realm=\"Please enter user and password\"")
            "name/password is required" 401 ∧
        (w.rw.wroteHeader = false →
          (mwBasicAuth handler user pass req w).rw.finish.status = 401)) ∧
      (∀ wp : World (Probed σ),
        (mwBasicAuth (probe "handler" handler) user pass req wp).env.journal =
          wp.env.journal)) ∧
    (req.BasicAuth = ("", "", true) →
      ∀ w, mwBasicAuth handler "" "" req w = handler req w) := by
  refine ⟨fun h => ?_, fun h => ?_, fun h user pass => ⟨fun w => ⟨?_, fun hw => ?_⟩,
    fun wp => ?_⟩, fun h w => mwBasicAuth_of_good handler "" "" req h w⟩
  · have hk : CanonicalMIMEHeaderKey "Authorization" = "Authorization" := by decide
    simp [Request.BasicAuth, Header.Get, hk, h]
  · unfold Request.BasicAuth
    by_cases he : req.Header.Get "Authorization" = ""
    · simp [he]
    · simp [he, h]
  · exact mwBasicAuth_of_bad handler user pass req (Or.inl h) w
  · rw [mwBasicAuth_of_bad handler user pass req (Or.inl h) w]
    have hw2 : (headerSet w "WWW-Authenticate"
        "Basic realm=\"Please enter user and password\"").rw.wroteHeader = false := hw
    exact (ResponseWriter.Error_of_not_wrote _ "name/password is required" 401 hw2).1
  · rw [mwBasicAuth_of_bad (probe "handler" handler) user pass req (Or.inl h) wp]
    rfl

theorem mwBasicAuth_absent_is_not_empty_witness :
    (requestOf "GET" []).Header.lookup "Authorization" = none ∧
    (requestOf "GET" []).BasicAuth = ("", "", false) ∧
    (parseBasicAuth ((requestOf "GET" [("Authorization", ["Bearer Og=="])]).Header.Get
      "Authorization")).2.2 = false ∧
    (requestOf "GET" [("Authorization", ["Bearer Og=="])]).BasicAuth.2.2 = false ∧
    (mwBasicAuth (writeBody "A") "" "" (requestOf "GET" []) World.start =
        httpError
          (headerSet World.start "WWW-Authenticate"
            "Basic realm=\"Please enter user and password\"")
          "name/password is required" 401 ∧
      (World.start.rw.wroteHeader = false →
        (mwBasicAuth (writeBody "A") "" "" (requestOf "GET" [])
          World.start).rw.finish.status = 401)) ∧
    (requestOf "GET" (authorization "Og==")).BasicAuth = ("", "", true) ∧
    (∀ w, mwBasicAuth (writeBody "A") "" "" (requestOf "GET" (authorization "Og==")) w =
      writeBody "A" (requestOf "GET" (authorization "Og==")) w) :=
  ⟨by decide,
    (mwBasicAuth_absent_is_not_empty (writeBody "A") (requestOf "GET" [])).1 (by decide),
    by decide,
    (mwBasicAuth_absent_is_not_empty (writeBody "A")
      (requestOf "GET" [("Authorization", ["Bearer Og=="])])).2.1 (by decide),
    ((mwBasicAuth_absent_is_not_empty (writeBody "A") (requestOf "GET" [])).2.2.1
      (by decide) "" "").1 World.start,
    by decide,
    (mwBasicAuth_absent_is_not_empty (writeBody "A")
      (requestOf "GET" (authorization "Og=="))).2.2.2 (by decide)⟩

end Shell2http
